import Mathlib

/-!
Shallow embedding of the job-queue subsystem of the financial-document
analyzer (files `queue_worker.py`, `tools.py`, `database.py`).

Modelling conventions:
* SQLAlchemy rows become Lean structures; the SQLite database becomes the
  `Store` structure (the `analysis_queue` and `analysis_results` tables plus
  the autoincrement counters).
* `datetime.utcnow()` / `time.time()` become reads of a logical clock, a
  `Nat` threaded through each operation and bumped at every read, so that
  later reads are strictly larger.
* The filesystem seen by `tools.FinancialDocumentTool._run` becomes an
  association list from paths to PDF entries; a PDF either extracts to a
  list of page strings or makes PyPDF2 raise (the `corrupt` constructor,
  covering the blanket `except Exception` of `_run`).
* Fallible externals are oracles passed as booleans: `commitOk` decides
  whether the `db.commit()` in `add_to_queue` succeeds, `enqueueOk` whether
  `queue.enqueue` succeeds, `redis_connected` is the module-level
  `REDIS_CONNECTED` flag computed from the import-time `ping()` probe.
* Inside `process_document` the pipeline (`_run`, `perform_analysis`) catches
  every exception internally and returns strings, and the
  `os.path.getsize` call is guarded by `os.path.exists`, so the inner
  `except` branch of `process_document` (lines 132-139, status := "failed")
  is unreachable absent storage faults; the embedding treats the commits
  inside `process_document` as succeeding, hence `process_document` is a
  total function of the store.
-/

namespace FinDoc

/-- Job status values used by `queue_worker.py` for `AnalysisQueue.status`
("pending", "processing", "completed", "failed"). -/
inductive Status where
  | pending
  | processing
  | completed
  | failed
deriving DecidableEq, Repr

/-- A row of the `analysis_queue` table (`database.AnalysisQueue`). -/
structure QueueItem where
  id : Nat
  user_id : Nat
  filename : String
  file_path : String
  query : String
  priority : Nat
  status : Status
  created_at : Nat
  started_at : Option Nat := none
  completed_at : Option Nat := none
  error_message : Option String := none
deriving DecidableEq, Repr

/-- A row of the `analysis_results` table (`database.AnalysisResult`). -/
structure ResultRec where
  id : Nat
  user_id : Nat
  filename : String
  file_size : Nat
  query : String
  analysis_result : String
  processing_time : Nat
  status : String
deriving DecidableEq, Repr

/-- The SQLite database: both tables plus the autoincrement counters
(SQLite assigns ids 1, 2, ... at insert). -/
structure Store where
  items : List QueueItem
  results : List ResultRec
  nextQueueId : Nat
  nextResultId : Nat
deriving DecidableEq, Repr

/-- The empty database, as created by `database.create_tables()`. -/
def initStore : Store := { items := [], results := [], nextQueueId := 1, nextResultId := 1 }

/-- What extracting a PDF yields: either the per-page texts that
`page.extract_text()` returns, or an exception message raised inside the
`try` of `FinancialDocumentTool._run` (PyPDF2 errors, I/O errors, ...). -/
inductive PdfContent where
  | pages (ps : List String)
  | corrupt (msg : String)
deriving DecidableEq, Repr

/-- A file on disk: its byte size (for `os.path.getsize`) and its content. -/
structure PdfEntry where
  size : Nat
  content : PdfContent
deriving DecidableEq, Repr

/-- The filesystem: paths to files.  `os.path.exists` is a lookup. -/
def FS := List (String × PdfEntry)

/-- `os.path.exists` / open: find the entry stored at `path`. -/
def lookupFS (fs : FS) (path : String) : Option PdfEntry :=
  match fs with
  | [] => none
  | (p, e) :: rest => if p = path then some e else lookupFS rest path

/-- The cleaning loop of `_run`: `while "\n\n" in content: content =
content.replace("\n\n", "\n")` runs `replace` to a fixed point, which
collapses every maximal run of newlines into a single newline; this
function computes that fixed point directly. -/
def collapseNL : List Char → List Char
  | [] => []
  | [c] => [c]
  | a :: b :: rest =>
      if a = '\n' && b = '\n' then collapseNL (b :: rest)
      else a :: collapseNL (b :: rest)

/-- Clean one page's extracted text (the inner while-loop of `_run`). -/
def cleanContent (s : String) : String := String.mk (collapseNL s.data)

/-- The `full_report` accumulation of `_run`: for each page, append the
cleaned content plus a trailing newline. -/
def fullReport (ps : List String) : String :=
  ps.foldl (fun acc p => acc ++ cleanContent p ++ "\n") ""

/-- Boolean substring test (Python's `in` on strings): does `needle` occur
contiguously inside the character list?  Used to model
`keyword.lower() in pdf_content.lower()`. -/
def charsOccur (needle : List Char) : List Char → Bool
  | [] => needle.isEmpty
  | c :: rest => needle.isPrefixOf (c :: rest) || charsOccur needle rest

/-- `needle in hay` for strings. -/
def containsSub (hay needle : String) : Bool := charsOccur needle.data hay.data

namespace FinancialDocumentTool

/-- `tools.FinancialDocumentTool._run`: checks `os.path.exists`, extracts
and cleans every page into `full_report`, truncates reports longer than
10000 characters, substitutes a placeholder for whitespace-only reports,
and converts any exception raised inside the `try` into an
`"Error reading PDF file: ..."` string.  Total by construction: every
branch returns a `String`. -/
def run (fs : FS) (path : String) : String :=
  match lookupFS fs path with
  | none => "Error: PDF file not found at " ++ path
  | some entry =>
    match entry.content with
    | .corrupt msg => "Error reading PDF file: " ++ msg
    | .pages ps =>
      let full_report := fullReport ps
      if full_report.length > 10000 then
        full_report.take 10000 ++ "\n\n[Document truncated for processing...]"
      else if full_report.trim = "" then "No readable content found in PDF"
      else full_report

end FinancialDocumentTool

/-- The keyword table of `QueueManager.perform_analysis`, in the source's
insertion order (Python dicts preserve it). -/
def financial_keywords : List (String × String) :=
  [("revenue", "Revenue/Sales data found"),
   ("profit", "Profitability information identified"),
   ("loss", "Loss information detected"),
   ("cash flow", "Cash flow statements present"),
   ("assets", "Asset information available"),
   ("liabilities", "Liability data found"),
   ("equity", "Equity information present"),
   ("debt", "Debt information identified"),
   ("investment", "Investment data found"),
   ("dividend", "Dividend information present")]

/-- `QueueManager.perform_analysis`: builds the report f-string.  `ts` is
the value `datetime.utcnow()` read inside the f-string.  Its `try` body is
total, so the `except` branch is unreachable. -/
def perform_analysis (ts : Nat) (pdf_content query : String) : String :=
  let header :=
    "\n# Financial Document Analysis\n\n## Query: " ++ query ++
    "\n\n## Document Analysis:\n- Content length: " ++ toString pdf_content.length ++
    " characters\n- Analysis timestamp: " ++ toString ts ++ "\n\n## Key Findings:\n"
  let findings := financial_keywords.filterMap
    (fun kv => if containsSub pdf_content.toLower kv.1 then some ("- " ++ kv.2) else none)
  let body :=
    if findings.isEmpty then "- No specific financial keywords detected"
    else String.intercalate "\n" findings
  header ++ body ++
    "\n\n## Document Preview (first 500 characters):\n" ++ pdf_content.take 500 ++ "..."

/-- Commit of an in-session mutation of one queue row: the row with the
item's id is overwritten (SQLAlchemy flushes the changed object back to
its row). -/
def updateItem (items : List QueueItem) (q : QueueItem) : List QueueItem :=
  items.map (fun x => if x.id = q.id then q else x)

/-- `AnalysisQueue` lookup by primary key
(`db.query(AnalysisQueue).filter(AnalysisQueue.id == queue_id).first()`). -/
def findItem (st : Store) (queue_id : Nat) : Option QueueItem :=
  st.items.find? (fun q => q.id = queue_id)

/-- The dict `process_document` returns. -/
inductive PRes where
  | itemNotFound
  | success (result_id : Nat) (processing_time : Nat) (analysis : String)
deriving DecidableEq, Repr

/-- `QueueManager.process_document(queue_id)`.  Faithful to the source: no
status guard — whatever status the row currently has, it is set to
"processing" (with a fresh `started_at`) and the analysis pipeline runs;
on the (total) pipeline's return the row is set to "completed" with a
fresh `completed_at` and a new `AnalysisResult` row is inserted.  Only a
missing row short-circuits.  `t` is the logical clock. -/
def process_document (fs : FS) (st : Store) (t : Nat) (queue_id : Nat) :
    Store × Nat × PRes :=
  let start_time := t
  let t := t + 1
  match findItem st queue_id with
  | none => (st, t, .itemNotFound)
  | some q =>
    let t1 := t
    let q1 : QueueItem := { q with status := .processing, started_at := some t1 }
    let st1 : Store := { st with items := updateItem st.items q1 }
    let t := t + 1
    let pdf_content := FinancialDocumentTool.run fs q1.file_path
    let analysis := perform_analysis t pdf_content q1.query
    let t := t + 1
    let processing_time := t - start_time
    let t := t + 1
    let file_size := match lookupFS fs q1.file_path with
      | some e => e.size
      | none => 0
    let res : ResultRec :=
      { id := st1.nextResultId, user_id := q1.user_id, filename := q1.filename,
        file_size := file_size, query := q1.query, analysis_result := analysis,
        processing_time := processing_time, status := "completed" }
    let t2 := t
    let q2 : QueueItem := { q1 with status := .completed, completed_at := some t2 }
    let t := t + 1
    let st2 : Store :=
      { st1 with items := updateItem st1.items q2,
                 results := st1.results ++ [res],
                 nextResultId := st1.nextResultId + 1 }
    (st2, t, .success res.id processing_time analysis)

/-- Exceptions `add_to_queue` can re-raise to its caller. -/
inductive SubmitErr where
  | storageError
  | dispatchError
deriving DecidableEq, Repr

/-- `QueueManager.add_to_queue(user_id, filename, file_path, query,
priority)`.  Stages a pending row and commits it; if the commit raises
(`commitOk = false`) the `except` handler rolls the insert back and
re-raises.  With Redis connected it enqueues and returns
`"queued_redis_analysis_<id>"`; if `enqueue` raises (`enqueueOk = false`)
the handler's `rollback()` is a no-op after the successful commit, so the
pending row survives, and the exception is re-raised.  Without Redis it
falls back to calling `process_document` in the caller's context and
returns `"processed_immediate_<id>"`. -/
def add_to_queue (redis_connected enqueueOk commitOk : Bool) (fs : FS)
    (st : Store) (t : Nat) (user_id : Nat) (filename file_path query : String)
    (priority : Nat) : Store × Nat × Except SubmitErr String :=
  let t0 := t
  let t := t + 1
  let queue_item : QueueItem :=
    { id := st.nextQueueId, user_id := user_id, filename := filename,
      file_path := file_path, query := query, priority := priority,
      status := .pending, created_at := t0 }
  if commitOk then
    let st1 : Store :=
      { st with items := st.items ++ [queue_item], nextQueueId := st.nextQueueId + 1 }
    if redis_connected then
      if enqueueOk then
        (st1, t, .ok ("queued_redis_analysis_" ++ toString queue_item.id))
      else
        (st1, t, .error .dispatchError)
    else
      let r := process_document fs st1 t queue_item.id
      (r.1, r.2.1, .ok ("processed_immediate_" ++ toString queue_item.id))
  else
    (st, t, .error .storageError)

/-- The dict returned by `get_queue_status`. -/
structure QStatusCounts where
  total : Nat
  pending : Nat
  processing : Nat
  completed : Nat
  failed : Nat
  redis_connected : Bool
deriving DecidableEq, Repr

/-- The local `query` of `get_queue_status`: the base query, narrowed to one
owner only when `user_id` is truthy (`if user_id:` in Python — applied only
when `user_id` is present and nonzero). -/
def statusQuery (st : Store) (user_id : Option Nat) : List QueueItem :=
  match user_id with
  | some u => if u ≠ 0 then st.items.filter (fun i => i.user_id = u) else st.items
  | none => st.items

/-- `QueueManager.get_queue_status(user_id=None)`.  Counts the rows of the
(possibly owner-narrowed) query per status.  Read-only: a pure function of
the store, returning only counts. -/
def get_queue_status (redis_connected : Bool) (st : Store)
    (user_id : Option Nat) : QStatusCounts :=
  let query : List QueueItem := statusQuery st user_id
  { total := query.length
  , pending := (query.filter (fun i => i.status = .pending)).length
  , processing := (query.filter (fun i => i.status = .processing)).length
  , completed := (query.filter (fun i => i.status = .completed)).length
  , failed := (query.filter (fun i => i.status = .failed)).length
  , redis_connected := redis_connected }

/-- One externally triggerable operation on the queue subsystem:
a submission (with its broker/storage oracles and the filesystem at that
moment) or one delivery of a job id to `process_document` (a worker
pickup, or a broker redelivery of the same id). -/
inductive Op where
  | submit (redis_connected enqueueOk commitOk : Bool) (fs : FS) (user_id : Nat)
      (filename file_path query : String) (priority : Nat)
  | exec (fs : FS) (queue_id : Nat)

/-- Apply one operation to database and clock. -/
def applyOp (p : Store × Nat) (op : Op) : Store × Nat :=
  match op with
  | .submit r e c fs uid fn fp q prio =>
      let res := add_to_queue r e c fs p.1 p.2 uid fn fp q prio
      (res.1, res.2.1)
  | .exec fs queue_id =>
      let res := process_document fs p.1 p.2 queue_id
      (res.1, res.2.1)

/-- Run a sequence of operations from the empty database. -/
def runOps (ops : List Op) : Store × Nat := ops.foldl applyOp (initStore, 0)

/-- Well-formed store: every queue row's id is below the autoincrement
counter (what SQLite id assignment maintains). -/
def wfStore (st : Store) : Prop := ∀ q ∈ st.items, q.id < st.nextQueueId

/-! ### Helper lemmas -/

theorem updateItem_updateItem (l : List QueueItem) (q1 q2 : QueueItem)
    (h : q1.id = q2.id) : updateItem (updateItem l q1) q2 = updateItem l q2 := by
  unfold updateItem
  rw [List.map_map]
  apply List.map_congr_left
  intro x _
  by_cases hx : x.id = q1.id
  · simp [Function.comp, hx, hx.trans h, h]
  · by_cases hx2 : x.id = q2.id
    · exact absurd (hx2.trans h.symm) hx
    · simp [Function.comp, hx, hx2]

theorem find?_updateItem (l : List QueueItem) (n : Nat) (q2 : QueueItem)
    (h2 : q2.id = n) (h : (l.find? (fun x => x.id = n)).isSome) :
    (updateItem l q2).find? (fun x => x.id = n) = some q2 := by
  induction l with
  | nil => simp [List.find?] at h
  | cons a rest ih =>
    by_cases ha : a.id = n
    · have : a.id = q2.id := by rw [ha, h2]
      simp [updateItem, List.find?, this, h2, ha]
    · have : a.id ≠ q2.id := by rw [h2]; exact ha
      rw [List.find?_cons_of_neg _ (by simpa using ha)] at h
      simpa [updateItem, List.find?_cons_of_neg, this, ha] using ih h

theorem updateItem_append_fresh (l : List QueueItem) (i q2 : QueueItem)
    (hfresh : ∀ x ∈ l, x.id ≠ q2.id) (hi : i.id = q2.id) :
    updateItem (l ++ [i]) q2 = l ++ [q2] := by
  induction l with
  | nil => simp [updateItem, hi]
  | cons a rest ih =>
    have ha : a.id ≠ q2.id := hfresh a (by simp)
    simp only [updateItem, List.map_cons, List.cons_append, if_neg ha] at *
    exact congrArg (a :: ·) (ih (fun x hx => hfresh x (by simp [hx])))

theorem find?_append_fresh (l : List QueueItem) (i : QueueItem) (n : Nat)
    (hfresh : ∀ x ∈ l, x.id ≠ n) (hi : i.id = n) :
    (l ++ [i]).find? (fun x => x.id = n) = some i := by
  induction l with
  | nil => simp [List.find?, hi]
  | cons a rest ih =>
    have ha : a.id ≠ n := hfresh a (by simp)
    rw [List.cons_append, List.find?_cons_of_neg _ (by simpa using ha)]
    exact ih (fun x hx => hfresh x (by simp [hx]))

/-- `process_document` on a missing row: the store is untouched, and the
routine reports the missing item after a single clock read. -/
theorem process_document_not_found (fs : FS) (st : Store) (t queue_id : Nat)
    (h : findItem st queue_id = none) :
    process_document fs st t queue_id = (st, t + 1, .itemNotFound) := by
  simp [process_document, h]

/-- `process_document` on an existing row, fully characterized: the row is
rewritten (whatever its previous status) to "completed" with fresh
`started_at`/`completed_at`, and a new `AnalysisResult` row is appended. -/
theorem process_document_found (fs : FS) (st : Store) (t queue_id : Nat)
    (q : QueueItem) (h : findItem st queue_id = some q) :
    process_document fs st t queue_id =
      ({ st with
           items := updateItem st.items
             { q with status := .completed, started_at := some (t + 1),
                      completed_at := some (t + 4) },
           results := st.results ++
             [{ id := st.nextResultId, user_id := q.user_id, filename := q.filename,
                file_size := (match lookupFS fs q.file_path with
                  | some e => e.size
                  | none => 0),
                query := q.query,
                analysis_result :=
                  perform_analysis (t + 2) (FinancialDocumentTool.run fs q.file_path) q.query,
                processing_time := 3, status := "completed" }],
           nextResultId := st.nextResultId + 1 },
       t + 5,
       .success st.nextResultId 3
         (perform_analysis (t + 2) (FinancialDocumentTool.run fs q.file_path) q.query)) := by
  have hcollapse := updateItem_updateItem st.items
    { q with status := .processing, started_at := some (t + 1) }
    { q with status := .completed, started_at := some (t + 1),
             completed_at := some (t + 4) } rfl
  simp only [process_document, h]
  rw [show t + 1 + 1 + 1 - t = 3 by omega]
  simp [hcollapse]

/-! ### The record-field invariant of the spec (claim C6) and an inductive
strengthening that holds of every reachable store. -/

/-- `startedAt` is set iff the status is processing, completed or failed. -/
def startedIffClaim (q : QueueItem) : Prop :=
  q.started_at.isSome = true ↔
    (q.status = .processing ∨ q.status = .completed ∨ q.status = .failed)

/-- `completedAt` is set iff the status is terminal. -/
def completedIffClaim (q : QueueItem) : Prop :=
  q.completed_at.isSome = true ↔ (q.status = .completed ∨ q.status = .failed)

/-- For terminal jobs, `startedAt ≤ completedAt`. -/
def orderedClaim (q : QueueItem) : Prop :=
  (q.status = .completed ∨ q.status = .failed) →
    ∀ a b, q.started_at = some a → q.completed_at = some b → a ≤ b

/-- `errorMessage` is non-empty iff the status is failed. -/
def errorIffClaim (q : QueueItem) : Prop :=
  (∃ s, q.error_message = some s ∧ s ≠ "") ↔ q.status = .failed

/-- The conjunction of C6's timestamp/error-field invariants. -/
def fieldInvariant (q : QueueItem) : Prop :=
  startedIffClaim q ∧ completedIffClaim q ∧ orderedClaim q ∧ errorIffClaim q

/-- Inductive strengthening: in every reachable store a row is either
freshly pending (no timestamps) or completed with ordered timestamps, and
`error_message` is never set (the failed branch of `process_document` is
unreachable because the analysis pipeline returns error strings instead of
raising). -/
def strongInv (q : QueueItem) : Prop :=
  q.error_message = none ∧
  ((q.status = .pending ∧ q.started_at = none ∧ q.completed_at = none) ∨
   (q.status = .completed ∧
     ∃ a b, q.started_at = some a ∧ q.completed_at = some b ∧ a ≤ b))

theorem strongInv_fieldInvariant (q : QueueItem) (h : strongInv q) :
    fieldInvariant q := by
  obtain ⟨he, hp | hc⟩ := h
  · obtain ⟨hs, h1, h2⟩ := hp
    refine ⟨?_, ?_, ?_, ?_⟩
    · simp [startedIffClaim, h1, hs]
    · simp [completedIffClaim, h2, hs]
    · intro hterm
      rw [hs] at hterm
      rcases hterm with h | h <;> exact absurd h (by simp)
    · simp [errorIffClaim, he, hs]
  · obtain ⟨hs, a, b, h1, h2, hab⟩ := hc
    refine ⟨?_, ?_, ?_, ?_⟩
    · simp [startedIffClaim, h1, hs]
    · simp [completedIffClaim, h2, hs]
    · intro _ a0 b0 ha0 hb0
      rw [h1] at ha0
      rw [h2] at hb0
      cases ha0
      cases hb0
      exact hab
    · simp [errorIffClaim, he, hs]

theorem strongInv_mem_updateItem (items : List QueueItem) (q : QueueItem)
    (hall : ∀ p ∈ items, strongInv p) (hq : strongInv q) :
    ∀ p ∈ updateItem items q, strongInv p := by
  intro p hp
  simp only [updateItem, List.mem_map] at hp
  obtain ⟨x, hx, hpx⟩ := hp
  by_cases h : x.id = q.id
  · rw [if_pos h] at hpx
    exact hpx ▸ hq
  · rw [if_neg h] at hpx
    exact hpx ▸ hall x hx

theorem strongInv_process_document (fs : FS) (st : Store) (t queue_id : Nat)
    (h : ∀ p ∈ st.items, strongInv p) :
    ∀ p ∈ (process_document fs st t queue_id).1.items, strongInv p := by
  cases hf : findItem st queue_id with
  | none => rw [process_document_not_found fs st t queue_id hf]; exact h
  | some q =>
    rw [process_document_found fs st t queue_id q hf]
    have hqmem : q ∈ st.items := List.mem_of_find?_eq_some hf
    have hq := h q hqmem
    apply strongInv_mem_updateItem _ _ h
    exact ⟨hq.1, Or.inr ⟨rfl, t + 1, t + 4, rfl, rfl, by omega⟩⟩

theorem strongInv_add_to_queue (r e c : Bool) (fs : FS) (st : Store)
    (t user_id : Nat) (fn fp qq : String) (prio : Nat)
    (h : ∀ p ∈ st.items, strongInv p) :
    ∀ p ∈ (add_to_queue r e c fs st t user_id fn fp qq prio).1.items, strongInv p := by
  have hnew : ∀ p ∈ st.items ++
      [{ id := st.nextQueueId, user_id := user_id, filename := fn, file_path := fp,
         query := qq, priority := prio, status := .pending,
         created_at := t : QueueItem }], strongInv p := by
    intro p hp
    rcases List.mem_append.mp hp with hl | hr
    · exact h p hl
    · rw [List.mem_singleton] at hr
      exact hr ▸ ⟨rfl, Or.inl ⟨rfl, rfl, rfl⟩⟩
  cases c with
  | false => simpa [add_to_queue] using h
  | true =>
    cases r with
    | true => cases e <;> simpa [add_to_queue] using hnew
    | false =>
      simp only [add_to_queue, if_pos, Bool.false_eq_true, if_false]
      exact strongInv_process_document _ _ _ _ hnew

theorem strongInv_applyOp (p : Store × Nat) (op : Op)
    (h : ∀ q ∈ p.1.items, strongInv q) :
    ∀ q ∈ (applyOp p op).1.items, strongInv q := by
  cases op with
  | submit r e c fs uid fn fp qq prio =>
    simpa [applyOp] using strongInv_add_to_queue r e c fs p.1 p.2 uid fn fp qq prio h
  | exec fs queue_id =>
    simpa [applyOp] using strongInv_process_document fs p.1 p.2 queue_id h

theorem strongInv_foldl (ops : List Op) :
    ∀ p : Store × Nat, (∀ q ∈ p.1.items, strongInv q) →
      ∀ q ∈ (ops.foldl applyOp p).1.items, strongInv q := by
  induction ops with
  | nil => intro p h; simpa using h
  | cons op rest ih =>
    intro p h
    rw [List.foldl_cons]
    exact ih (applyOp p op) (strongInv_applyOp p op h)

theorem strongInv_runOps (ops : List Op) :
    ∀ q ∈ (runOps ops).1.items, strongInv q :=
  strongInv_foldl ops (initStore, 0) (by simp [initStore])

/-- The id of a row returned by `findItem` is the id that was looked up. -/
theorem findItem_id (st : Store) (n : Nat) (q : QueueItem)
    (h : findItem st n = some q) : q.id = n := by
  have := List.find?_some h
  simpa using this

/-- After `process_document` runs on an existing row, looking the row up
again yields it rewritten to completed with the fresh timestamps. -/
theorem findItem_process_document (fs : FS) (st : Store) (t n : Nat)
    (q : QueueItem) (h : findItem st n = some q) :
    findItem (process_document fs st t n).1 n =
      some { q with status := .completed, started_at := some (t + 1),
                    completed_at := some (t + 4) } := by
  rw [process_document_found fs st t n q h]
  have hsome : (st.items.find? (fun x => x.id = n)).isSome := by
    unfold findItem at h
    simp [h]
  exact find?_updateItem st.items n _ (findItem_id st n q h) hsome

/-- Existing rows survive a submission untouched, in every branch of
`add_to_queue` (the well-formedness hypothesis gives freshness of the new
id). -/
theorem mem_add_to_queue_of_mem (r e c : Bool) (fs : FS) (st : Store)
    (t user_id : Nat) (fn fp qq : String) (prio : Nat)
    (hwf : wfStore st) (q : QueueItem) (hq : q ∈ st.items) :
    q ∈ (add_to_queue r e c fs st t user_id fn fp qq prio).1.items := by
  set item : QueueItem :=
    { id := st.nextQueueId, user_id := user_id, filename := fn, file_path := fp,
      query := qq, priority := prio, status := .pending, created_at := t } with hitem
  have hfresh : ∀ x ∈ st.items, x.id ≠ st.nextQueueId :=
    fun x hx => Nat.ne_of_lt (hwf x hx)
  cases c with
  | false => simpa [add_to_queue] using hq
  | true =>
    cases r with
    | true => cases e <;> simp [add_to_queue] <;> exact Or.inl hq
    | false =>
      have hfind :
          findItem
            { st with items := st.items ++ [item], nextQueueId := st.nextQueueId + 1 }
            st.nextQueueId = some item := by
        simpa [findItem] using
          find?_append_fresh st.items item st.nextQueueId hfresh rfl
      simp only [add_to_queue, Bool.false_eq_true, if_false, if_pos]
      rw [process_document_found _ _ _ _ item hfind]
      simp only []
      have hupd := updateItem_append_fresh st.items item
        { item with status := Status.completed, started_at := some (t + 1 + 1),
                    completed_at := some (t + 1 + 4) } hfresh rfl
      rw [hupd]
      exact List.mem_append.mpr (Or.inl hq)

/-- Partition of the row count by the four status values: every row has
exactly one of the four statuses, so the total is the sum of the four
per-status counts. -/
theorem length_eq_sum_status (l : List QueueItem) :
    l.length = (l.filter (fun i => i.status = .pending)).length +
      (l.filter (fun i => i.status = .processing)).length +
      (l.filter (fun i => i.status = .completed)).length +
      (l.filter (fun i => i.status = .failed)).length := by
  induction l with
  | nil => rfl
  | cons a rest ih =>
    rcases ha : a.status with _ | _ | _ | _ <;>
      simp [List.filter_cons, ha, ih] <;> omega

/-! ### Concrete fixtures used by closed counterexample and witness
theorems -/

/-- A freshly submitted pending row (what a broker-backed submission from
the empty database creates). -/
def itemP : QueueItem :=
  { id := 1, user_id := 1, filename := "f.pdf", file_path := "data/f.pdf",
    query := "q", priority := 1, status := .pending, created_at := 0 }

/-- A store holding just the pending row `itemP`. -/
def stP : Store := { items := [itemP], results := [], nextQueueId := 2, nextResultId := 1 }

/-- A pending row owned by user id 0. -/
def item0 : QueueItem :=
  { id := 1, user_id := 0, filename := "a.pdf", file_path := "data/a.pdf",
    query := "qa", priority := 1, status := .pending, created_at := 0 }

/-- A pending row owned by user id 7. -/
def item7 : QueueItem :=
  { id := 2, user_id := 7, filename := "b.pdf", file_path := "data/b.pdf",
    query := "qb", priority := 1, status := .pending, created_at := 0 }

/-- A store with one row owned by user 0 and one owned by user 7. -/
def store09 : Store :=
  { items := [item0, item7], results := [], nextQueueId := 3, nextResultId := 1 }

/-! ### Claims -/

/-- C5 counterexample: with Redis connected, a failing `queue.enqueue`
(dispatch failure) is re-raised to the submitting caller — `add_to_queue`
returns the broker error instead of degrading to fallback execution, so
the claim that broker dispatch failures are never propagated is false. -/
theorem C5_counterexample :
    (add_to_queue true false true [] initStore 0 1 "f.pdf" "data/f.pdf" "q" 1).2.2 =
      Except.error SubmitErr.dispatchError := by
  rfl

/-- C5 amended: only the import-time connectivity probe failure is
absorbed — with `REDIS_CONNECTED = false` a submission (whose store commit
succeeds) always returns a normal immediate-fallback result; a dispatch
(enqueue) failure, by contrast, is re-raised to the caller, leaving the
already-committed pending row in the store. -/
theorem C5_amended :
    (∀ (e : Bool) (fs : FS) (st : Store) (t uid : Nat) (fn fp qq : String) (prio : Nat),
       (add_to_queue false e true fs st t uid fn fp qq prio).2.2 =
         Except.ok ("processed_immediate_" ++ toString st.nextQueueId)) ∧
    (∀ (fs : FS) (st : Store) (t uid : Nat) (fn fp qq : String) (prio : Nat),
       (add_to_queue true false true fs st t uid fn fp qq prio).2.2 =
         Except.error SubmitErr.dispatchError ∧
       (add_to_queue true false true fs st t uid fn fp qq prio).1.items =
         st.items ++
           [{ id := st.nextQueueId, user_id := uid, filename := fn, file_path := fp,
              query := qq, priority := prio, status := Status.pending,
              created_at := t }]) := by
  refine ⟨fun e fs st t uid fn fp qq prio => ?_, fun fs st t uid fn fp qq prio => ⟨?_, ?_⟩⟩
  · simp [add_to_queue]
  · simp [add_to_queue]
  · simp [add_to_queue]

/-- C7: if the Job Store commit fails during submission, `add_to_queue`
rolls the staged insert back, re-raises the storage error to the caller,
and leaves the store exactly as it was: no partial record remains. -/
theorem C7_storage_abort (r e : Bool) (fs : FS) (st : Store) (t uid : Nat)
    (fn fp qq : String) (prio : Nat) :
    add_to_queue r e false fs st t uid fn fp qq prio =
      (st, t + 1, Except.error SubmitErr.storageError) := by
  simp [add_to_queue]

/-- C8: `get_queue_status` is a pure function of the store (read-only by
construction) whose `total` is the number of rows of the (owner-narrowed)
query, whose four per-status counts are the numbers of those rows with
each status, and whose total therefore equals the sum of the four counts
(every row's status is one of the four values). -/
theorem C8_queue_status_counts (r : Bool) (st : Store) (uid : Option Nat) :
    (get_queue_status r st uid).total = (statusQuery st uid).length ∧
    (get_queue_status r st uid).pending =
      ((statusQuery st uid).filter (fun i => i.status = Status.pending)).length ∧
    (get_queue_status r st uid).processing =
      ((statusQuery st uid).filter (fun i => i.status = Status.processing)).length ∧
    (get_queue_status r st uid).completed =
      ((statusQuery st uid).filter (fun i => i.status = Status.completed)).length ∧
    (get_queue_status r st uid).failed =
      ((statusQuery st uid).filter (fun i => i.status = Status.failed)).length ∧
    (get_queue_status r st uid).total =
      (get_queue_status r st uid).pending + (get_queue_status r st uid).processing +
        (get_queue_status r st uid).completed + (get_queue_status r st uid).failed := by
  refine ⟨rfl, rfl, rfl, rfl, rfl, ?_⟩
  exact length_eq_sum_status (statusQuery st uid)

/-- C9: calling `get_queue_status` with `user_id = 0` takes the untruthy
branch of `if user_id:` — the owner filter is skipped, so the result
equals the unfiltered queue-wide counts; on a store with one row owned by
user 0 and one by user 7 the reported total is 2, not the 1 row that an
owner-0 filter would match. -/
theorem C9_zero_owner_unfiltered :
    (∀ (r : Bool) (st : Store),
       get_queue_status r st (some 0) = get_queue_status r st none) ∧
    (get_queue_status true store09 (some 0)).total = 2 ∧
    (store09.items.filter (fun i => i.user_id = 0)).length = 1 := by
  refine ⟨fun r st => ?_, by decide, by decide⟩
  simp [get_queue_status, statusQuery]

/-- C6: after every reachable sequence of submit and execute operations,
every job record satisfies the timestamp/error-field invariant:
`started_at` is set iff the status is processing/completed/failed,
`completed_at` is set iff the status is terminal, terminal records have
`started_at ≤ completed_at`, and `error_message` is non-empty iff the
status is failed.  (In this fault-free model the analysis pipeline never
raises, so reachable records are in fact only ever pending or completed
and `error_message` stays unset.) -/
theorem C6_field_invariants (ops : List Op) (q : QueueItem)
    (hq : q ∈ (runOps ops).1.items) : fieldInvariant q :=
  strongInv_fieldInvariant q (strongInv_runOps ops q hq)

/-- C6 witness: the pending row created by a broker-backed submission from
the empty database satisfies the field invariant. -/
theorem C6_witness :
    itemP ∈ (runOps [.submit true true true [] 1 "f.pdf" "data/f.pdf" "q" 1]).1.items ∧
      fieldInvariant itemP :=
  ⟨by decide,
   C6_field_invariants [.submit true true true [] 1 "f.pdf" "data/f.pdf" "q" 1] itemP
     (by decide)⟩

/-- C1 counterexample: a fallback submission leaves job 1 completed
(terminal, `started_at = 2`) with one result row; delivering the same job
id to `process_document` again is not a no-op — the analysis engine runs
a second time (a second result row appears) and the terminal record is
overwritten (`started_at` becomes 7). -/
theorem C1_counterexample :
    (findItem (runOps [.submit false true true [] 1 "f.pdf" "data/f.pdf" "q" 1]).1 1).map
        (fun q => (q.status, q.started_at)) = some (Status.completed, some 2) ∧
    (runOps [.submit false true true [] 1 "f.pdf" "data/f.pdf" "q" 1]).1.results.length = 1 ∧
    (runOps [.submit false true true [] 1 "f.pdf" "data/f.pdf" "q" 1,
             .exec [] 1]).1.results.length = 2 ∧
    (findItem (runOps [.submit false true true [] 1 "f.pdf" "data/f.pdf" "q" 1,
                       .exec [] 1]).1 1).map
        (fun q => (q.status, q.started_at)) = some (Status.completed, some 7) := by
  refine ⟨by decide, by decide, by decide, by decide⟩

/-- C1 amended: `process_document` has no status guard, so it is a no-op
only when no record with the given id exists; on an existing record of
any status — pending or already terminal — it re-claims the record and
re-runs the analysis engine, appending a fresh result row and rewriting
the record to completed with fresh timestamps. -/
theorem C1_amended (fs : FS) (st : Store) (t n : Nat) :
    (findItem st n = none →
       process_document fs st t n = (st, t + 1, PRes.itemNotFound)) ∧
    (∀ q, findItem st n = some q →
       (process_document fs st t n).1.results.length = st.results.length + 1 ∧
       findItem (process_document fs st t n).1 n =
         some { q with status := Status.completed, started_at := some (t + 1),
                       completed_at := some (t + 4) }) := by
  refine ⟨process_document_not_found fs st t n, fun q h => ⟨?_, ?_⟩⟩
  · rw [process_document_found fs st t n q h]
    simp
  · exact findItem_process_document fs st t n q h

/-- C1 amended, witness: no-op on the empty store's unknown id 1, and
re-execution on the store holding the pending row `itemP`. -/
theorem C1_witness :
    (findItem initStore 1 = none ∧
       process_document [] initStore 0 1 = (initStore, 1, PRes.itemNotFound)) ∧
    (findItem stP 1 = some itemP ∧
       (process_document [] stP 0 1).1.results.length = stP.results.length + 1) :=
  ⟨⟨by decide, (C1_amended [] initStore 0 1).1 (by decide)⟩,
   ⟨by decide, ((C1_amended [] stP 0 1).2 itemP (by decide)).1⟩⟩

/-- C2 counterexample: along the reachable sequence (fallback submit of
job 1; execute job 1 redelivered), the record is terminal after the first
two steps (completed, `started_at = 2`, `completed_at = 5`) and its fields
change again at the redelivered execution (`started_at = 7`,
`completed_at = 10`) — a terminal record is not immutable, and mid-step
its status revisits processing. -/
theorem C2_counterexample :
    (findItem (runOps [.submit false true true [] 1 "f.pdf" "data/f.pdf" "q" 1]).1 1).map
        (fun q => (q.status, q.started_at, q.completed_at)) =
      some (Status.completed, some 2, some 5) ∧
    (findItem (runOps [.submit false true true [] 1 "f.pdf" "data/f.pdf" "q" 1,
                       .exec [] 1]).1 1).map
        (fun q => (q.status, q.started_at, q.completed_at)) =
      some (Status.completed, some 7, some 10) := by
  refine ⟨by decide, by decide⟩

/-- C2 amended: forward movement holds per operation — a submission never
touches existing records (in any broker/storage branch, given the store's
id counter is well-formed), and executing a pending record moves it to a
terminal status (completed in this fault-free model); but terminal records
are rewritten if `process_document` is invoked on them again, so
monotonicity holds only when each job id is executed at most once. -/
theorem C2_amended :
    (∀ (r e c : Bool) (fs : FS) (st : Store) (t uid : Nat) (fn fp qq : String)
       (prio : Nat), wfStore st → ∀ q ∈ st.items,
         q ∈ (add_to_queue r e c fs st t uid fn fp qq prio).1.items) ∧
    (∀ (fs : FS) (st : Store) (t n : Nat) (q : QueueItem),
       findItem st n = some q → q.status = Status.pending →
         (findItem (process_document fs st t n).1 n).map QueueItem.status =
           some Status.completed) := by
  refine ⟨fun r e c fs st t uid fn fp qq prio hwf q hq =>
    mem_add_to_queue_of_mem r e c fs st t uid fn fp qq prio hwf q hq,
    fun fs st t n q h _ => ?_⟩
  rw [findItem_process_document fs st t n q h]
  rfl

/-- C2 amended, witness: a broker-backed submission over `stP` keeps the
row `itemP`, and executing the pending row `itemP` ends with it
completed. -/
theorem C2_witness :
    (wfStore stP ∧ itemP ∈ (add_to_queue true true true [] stP 0 2 "g.pdf" "data/g.pdf" "q2" 1).1.items) ∧
    ((findItem (process_document [] stP 0 1).1 1).map QueueItem.status =
      some Status.completed) :=
  ⟨⟨by unfold wfStore; decide,
    C2_amended.1 true true true [] stP 0 2 "g.pdf" "data/g.pdf" "q2" 1
      (by unfold wfStore; decide) itemP (by decide)⟩,
   C2_amended.2 [] stP 0 1 itemP (by decide) (by decide)⟩

/-- In the fallback branch (`REDIS_CONNECTED = false`, commit succeeds),
looking up the freshly assigned id after `add_to_queue` returns yields the
new row already completed, with both timestamps set. -/
theorem add_fallback_findItem (e : Bool) (fs : FS) (st : Store) (t uid : Nat)
    (fn fp qq : String) (prio : Nat) (hwf : wfStore st) :
    findItem (add_to_queue false e true fs st t uid fn fp qq prio).1 st.nextQueueId =
      some { id := st.nextQueueId, user_id := uid, filename := fn, file_path := fp,
             query := qq, priority := prio, status := Status.completed, created_at := t,
             started_at := some (t + 1 + 1), completed_at := some (t + 1 + 4) } := by
  have hfresh : ∀ x ∈ st.items, x.id ≠ st.nextQueueId :=
    fun x hx => Nat.ne_of_lt (hwf x hx)
  have hfind :
      findItem
        { st with
            items := st.items ++
              [{ id := st.nextQueueId, user_id := uid, filename := fn, file_path := fp,
                 query := qq, priority := prio, status := Status.pending,
                 created_at := t }],
            nextQueueId := st.nextQueueId + 1 }
        st.nextQueueId =
      some { id := st.nextQueueId, user_id := uid, filename := fn, file_path := fp,
             query := qq, priority := prio, status := Status.pending,
             created_at := t } := by
    simpa [findItem] using
      find?_append_fresh st.items
        { id := st.nextQueueId, user_id := uid, filename := fn, file_path := fp,
          query := qq, priority := prio, status := Status.pending, created_at := t }
        st.nextQueueId hfresh rfl
  simp only [add_to_queue, Bool.false_eq_true, if_false, if_pos]
  rw [findItem_process_document _ _ _ _ _ hfind]

/-- C3 counterexample: a fallback submission does resolve the job before
returning (the stored record is completed), but the returned handle is the
bare string "processed_immediate_1" — it carries the job id only and does
not carry the resolved terminal status (neither "completed" nor "failed"
appears in it, nor anything derived from the outcome). -/
theorem C3_counterexample :
    (add_to_queue false true true [] initStore 0 1 "f.pdf" "data/f.pdf" "q" 1).2.2 =
      Except.ok "processed_immediate_1" ∧
    (findItem (add_to_queue false true true [] initStore 0 1 "f.pdf" "data/f.pdf" "q" 1).1
        1).map QueueItem.status = some Status.completed ∧
    containsSub "processed_immediate_1" "completed" = false ∧
    containsSub "processed_immediate_1" "failed" = false := by
  refine ⟨by rfl, by decide, by decide, by decide⟩

/-- C3 amended: with the broker unavailable, `add_to_queue` does execute
the job synchronously before returning, and the stored record is already
terminal (completed) when the call returns — no pending state remains
observable afterwards; the returned handle, however, is only
"processed_immediate_" followed by the job id, not the resolved status. -/
theorem C3_amended (e : Bool) (fs : FS) (st : Store) (t uid : Nat)
    (fn fp qq : String) (prio : Nat) (hwf : wfStore st) :
    (add_to_queue false e true fs st t uid fn fp qq prio).2.2 =
      Except.ok ("processed_immediate_" ++ toString st.nextQueueId) ∧
    (findItem (add_to_queue false e true fs st t uid fn fp qq prio).1 st.nextQueueId).map
        QueueItem.status = some Status.completed := by
  constructor
  · simp [add_to_queue]
  · rw [add_fallback_findItem e fs st t uid fn fp qq prio hwf]
    rfl

/-- C3 amended, witness: instantiated on the empty store. -/
theorem C3_witness :
    wfStore initStore ∧
    ((add_to_queue false true true [] initStore 0 1 "f.pdf" "data/f.pdf" "q" 1).2.2 =
       Except.ok ("processed_immediate_" ++ toString initStore.nextQueueId) ∧
     (findItem (add_to_queue false true true [] initStore 0 1 "f.pdf" "data/f.pdf" "q" 1).1
         initStore.nextQueueId).map QueueItem.status = some Status.completed) :=
  ⟨by unfold wfStore; decide,
   C3_amended true [] initStore 0 1 "f.pdf" "data/f.pdf" "q" 1 (by unfold wfStore; decide)⟩

/-- C4 counterexample: submitting a job whose `file_path` resolves to no
file (empty filesystem) and executing it ends with the job completed and
`error_message` unset — not failed as the claim requires. -/
theorem C4_counterexample :
    lookupFS [] "data/f.pdf" = none ∧
    (findItem (runOps [.submit false true true [] 1 "f.pdf" "data/f.pdf" "q" 1]).1 1).map
        (fun q => (q.status, q.error_message)) = some (Status.completed, none) ∧
    Status.completed ≠ Status.failed := by
  refine ⟨by decide, by decide, by decide⟩

/-- C4 amended: executing a job whose input file does not exist does not
fail the job: `_run` returns the not-found message as an ordinary string,
the analysis is performed on that string, and the job transitions
pending → processing → completed with `error_message` left untouched; the
returned result embeds the analysis of the not-found error text. -/
theorem C4_amended (fs : FS) (st : Store) (t n : Nat) (q : QueueItem)
    (hq : findItem st n = some q) (hmiss : lookupFS fs q.file_path = none) :
    (findItem (process_document fs st t n).1 n).map
        (fun x => (x.status, x.error_message)) =
      some (Status.completed, q.error_message) ∧
    (process_document fs st t n).2.2 =
      PRes.success st.nextResultId 3
        (perform_analysis (t + 2) ("Error: PDF file not found at " ++ q.file_path)
          q.query) := by
  constructor
  · rw [findItem_process_document fs st t n q hq]
    rfl
  · rw [process_document_found fs st t n q hq]
    simp [FinancialDocumentTool.run, hmiss]

/-- C4 amended, witness: the pending row `itemP` executed over the empty
filesystem. -/
theorem C4_witness :
    (findItem stP 1 = some itemP ∧ lookupFS [] itemP.file_path = none) ∧
    (findItem (process_document [] stP 0 1).1 1).map
        (fun x => (x.status, x.error_message)) =
      some (Status.completed, itemP.error_message) :=
  ⟨⟨by decide, by decide⟩, (C4_amended [] stP 0 1 itemP (by decide) (by decide)).1⟩

/-- Cleaning a page that contains no newline leaves it unchanged (there is
no newline pair to collapse). -/
theorem collapseNL_no_newline (l : List Char) (h : '\n' ∉ l) : collapseNL l = l := by
  induction l with
  | nil => rfl
  | cons a rest ih =>
    have ha : ¬(a = '\n') := fun hc => h (by simp [hc])
    have htail : '\n' ∉ rest := fun hc => h (by simp [hc])
    cases rest with
    | nil => rfl
    | cons b rest2 =>
      simp only [collapseNL]
      rw [if_neg (by simp [ha])]
      rw [ih htail]

/-- String concatenation adds lengths (strings are character lists). -/
theorem strLength_append (a b : String) : (a ++ b).length = a.length + b.length := by
  cases a with
  | mk l1 =>
    cases b with
    | mk l2 =>
      show (l1 ++ l2).length = l1.length + l2.length
      exact List.length_append l1 l2

/-- A single extracted page of 10050 letters (no newlines): makes the
accumulated report exceed the 10000-character truncation threshold. -/
def bigPage : String := String.mk (List.replicate 10050 'a')

/-- A file whose extraction raises (PyPDF2 error "boom"). -/
def fsBad : FS := [("bad.pdf", { size := 5, content := .corrupt "boom" })]

/-- A file whose single page is `bigPage`. -/
def fsBig : FS := [("big.pdf", { size := 9, content := .pages [bigPage] })]

/-- The report built from the big page is 10051 characters long (10050
letters plus the appended newline). -/
theorem bigReport_length : (fullReport [bigPage]).length = 10051 := by
  have hnonl : '\n' ∉ List.replicate 10050 'a' := by
    intro hm
    have := List.eq_of_mem_replicate hm
    simp at this
  have h1 : (cleanContent bigPage).length = 10050 := by
    show (String.mk (collapseNL (List.replicate 10050 'a'))).length = 10050
    rw [collapseNL_no_newline _ hnonl]
    show (List.replicate 10050 'a').length = 10050
    exact List.length_replicate 10050 'a'
  show (("" ++ cleanContent bigPage) ++ "\n").length = 10051
  rw [strLength_append, strLength_append, h1]
  rfl

/-- C10: `FinancialDocumentTool._run` is total — every branch returns a
string, never raising: a path that does not exist yields exactly
"Error: PDF file not found at " followed by the path; a file whose
extraction raises internally yields "Error reading PDF file: " followed
by the exception text; and a report longer than 10000 characters is
returned truncated to its first 10000 characters plus the truncation
marker. -/
theorem C10_run_total (fs : FS) (path : String) :
    (lookupFS fs path = none →
       FinancialDocumentTool.run fs path = "Error: PDF file not found at " ++ path) ∧
    (∀ msg sz, lookupFS fs path = some { size := sz, content := .corrupt msg } →
       FinancialDocumentTool.run fs path = "Error reading PDF file: " ++ msg) ∧
    (∀ ps sz, lookupFS fs path = some { size := sz, content := .pages ps } →
       10000 < (fullReport ps).length →
       FinancialDocumentTool.run fs path =
         (fullReport ps).take 10000 ++ "\n\n[Document truncated for processing...]") := by
  refine ⟨fun h => ?_, fun msg sz h => ?_, fun ps sz h hlen => ?_⟩
  · simp [FinancialDocumentTool.run, h]
  · simp [FinancialDocumentTool.run, h]
  · simp [FinancialDocumentTool.run, h, hlen]

/-- C10 witness: the three behaviors at concrete files — a missing path,
a corrupt file, and a file whose report exceeds the threshold. -/
theorem C10_witness :
    FinancialDocumentTool.run [] "nope.pdf" = "Error: PDF file not found at nope.pdf" ∧
    FinancialDocumentTool.run fsBad "bad.pdf" = "Error reading PDF file: boom" ∧
    FinancialDocumentTool.run fsBig "big.pdf" =
      (fullReport [bigPage]).take 10000 ++ "\n\n[Document truncated for processing...]" :=
  ⟨(C10_run_total [] "nope.pdf").1 rfl,
   (C10_run_total fsBad "bad.pdf").2.1 "boom" 5 rfl,
   (C10_run_total fsBig "big.pdf").2.2 [bigPage] 9 rfl
     (by rw [bigReport_length]; omega)⟩

end FinDoc
